import Mathlib

/-!
Verification of the FNOL document-processing application (src/app.py): a
shallow embedding of its intake/normalization core and display boundary,
with theorems settling the specification's claims about it.

Modelling conventions:
* JSON values (as produced by Python's `json.loads`) are the inductive
  `Json`; Python dicts are association lists with distinct keys (the
  Python-dict invariant is a `Nodup` hypothesis where a theorem needs it).
* PIL images are abstract tokens (`Img := Nat`); only their identity,
  count and order matter to the claims, except for the bounding-box
  overlay where width/height are passed explicitly.
* The external Gemini model is an oracle parameter `List Img → String`;
  calls to it are counted explicitly so call-count claims are statable.
* Python float arithmetic in `draw_bounding_box_on_image` is modelled by
  exact rational arithmetic with truncation toward zero (`int(...)`).
* HTML template strings are presentation glue; where a claim depends only
  on control flow, the produced markup is reduced to a short label while
  the branch structure, returned indices and placeholder strings of the
  source are kept exactly.
-/

namespace GigKwtFnol

/-- JSON values as returned by `json.loads`. Objects are association lists
in insertion order (Python dicts preserve insertion order and have
distinct keys). -/
inductive Json where
  | null
  | bool (b : Bool)
  | num (n : Int)
  | str (s : String)
  | arr (elems : List Json)
  | obj (fields : List (String × Json))

/-- `True` exactly on JSON objects (Python `isinstance(v, dict)`). -/
def Json.isObj : Json → Bool
  | .obj _ => true
  | _ => false

/-- Key membership in a JSON-object association list (Python `k in d`). -/
def hasKey (fields : List (String × Json)) (k : String) : Bool :=
  fields.any (fun p => p.1 = k)

/-- First binding for `k` (Python `d[k]` / `d.get(k)`; with distinct keys
this is the unique binding). -/
def findVal (fields : List (String × Json)) (k : String) : Option Json :=
  (fields.find? (fun p => p.1 = k)).map (fun p => p.2)

/-- Python `k in v` restricted to dict receivers. On non-dict JSON values
the source either short-circuits before membership is consulted or raises
into an enclosing handler; every claim below is scoped to dict receivers. -/
def jHasKey : Json → String → Bool
  | .obj fs, k => hasKey fs k
  | _, _ => false

/-- Python `v.get(k, d)` on a dict receiver. A non-dict receiver raises
`AttributeError` in the source, diverting to the enclosing error path;
claims below only evaluate this on dict receivers. -/
def jGetD (j : Json) (k : String) (d : Json) : Json :=
  match j with
  | .obj fs => (findVal fs k).getD d
  | _ => d

/-- Python truthiness of a JSON value (`if damage_location:` etc.). -/
def Json.truthy : Json → Bool
  | .null => false
  | .bool b => b
  | .num n => n != 0
  | .str s => !s.isEmpty
  | .arr xs => !xs.isEmpty
  | .obj fs => !fs.isEmpty

/-- `identify_document_type` (src/app.py:1082-1095): classify a parsed
document object by presence of characteristic key pairs, first match in
the fixed `if/elif` order winning; no match yields the unknown label. -/
def identify_document_type (doc : List (String × Json)) : String :=
  if hasKey doc "report_header" && hasKey doc "first_party" then
    "Police Report (Form 1)"
  else if hasKey doc "violator_information" && hasKey doc "violation_description" then
    "Acceptance of Reconciliation (Form 2)"
  else if hasKey doc "involved_vehicles" && hasKey doc "authorizing_officer" then
    "Traffic Accident Notification (Form 3)"
  else if hasKey doc "issuing_company" && hasKey doc "policy_summary" then
    "Insurance Policy (Form 4)"
  else if hasKey doc "vehicle_and_driver" && hasKey doc "damage_description" then
    "Hit and Run Report (Form 5)"
  else
    "Unknown Document Type"

/-- Key membership only depends on the set of keys, so it is invariant
under permutation of the association list. -/
theorem hasKey_perm {l l' : List (String × Json)} (h : l.Perm l') (k : String) :
    hasKey l k = hasKey l' k := by
  rw [Bool.eq_iff_iff]
  simp only [hasKey, List.any_eq_true]
  exact ⟨fun ⟨p, hp, hk⟩ => ⟨p, h.mem_iff.mp hp, hk⟩,
         fun ⟨p, hp, hk⟩ => ⟨p, h.mem_iff.mpr hp, hk⟩⟩

/-- Rasterized page images are abstract tokens; only identity, count and
order matter to the intake claims. -/
abbrev Img := Nat

/-- One uploaded artifact as the intake loop sees it: its extension class
together with whether the corresponding library call (`Image.open` /
`pdfplumber` conversion) succeeds, and the page images it yields when it
does. `unsupported` covers every extension outside the two supported
lists (including a loose `.zip`, which `process_uploaded_files` skips). -/
inductive FileItem where
  | image (ok : Bool) (im : Img)
  | pdf (ok : Bool) (pages : List Img)
  | unsupported

/-- `DocumentProcessor.process_uploaded_files` (src/app.py:394-428): loop
over the files in submission order; a readable image contributes itself, a
readable PDF contributes its pages in document page order, and an
unreadable or unsupported item contributes nothing (the source prints the
error and continues). -/
def process_uploaded_files : List FileItem → List Img
  | [] => []
  | f :: rest =>
    (match f with
     | .image true im => [im]
     | .image false _ => []
     | .pdf true pages => pages
     | .pdf false _ => []
     | .unsupported => []) ++ process_uploaded_files rest

/-- The ZIP slot of a submission: absent, a corrupt archive (extraction
raises, the handler prints and returns the empty accumulator), or an
archive whose walked entries are classified like loose files. -/
inductive ZipInput where
  | noZip
  | corrupt
  | archive (entries : List FileItem)

/-- `DocumentProcessor.process_zip_file` (src/app.py:430-465): extract the
archive and classify every walked entry exactly as the loose-file loop
does; a corrupt archive or missing file yields no images. -/
def process_zip_file : ZipInput → List Img
  | .noZip => []
  | .corrupt => []
  | .archive entries => process_uploaded_files entries

/-- `DocumentProcessor.process_documents_with_gemini` (src/app.py:483-512)
with the external model abstracted to an oracle; the second component
counts oracle invocations. An empty image list short-circuits before the
oracle; otherwise the oracle is invoked exactly once (its own failure is
caught in the source and returned as an error string, which the oracle
abstraction subsumes). -/
def process_documents_with_gemini (model : List Img → String)
    (images : List Img) : String × Nat :=
  if images.isEmpty then ("No images to process", 0)
  else (model images, 1)

/-- The image sequence a submission presents to the model: all loose files
first, then all archive-derived files (src/app.py:844-854, 891-901). -/
def all_images_of (loose : List FileItem) (zip : ZipInput) : List Img :=
  process_uploaded_files loose ++ process_zip_file zip

/-- Observable outcome of `process_files_accident`: the result text, the
gallery, the reported image count, and how many times the external model
was invoked. -/
structure AccidentOutput where
  result : String
  gallery : Option (List Img)
  imageCount : Nat
  modelCalls : Nat

/-- `process_files_accident` (src/app.py:841-885): normalize both upload
slots, short-circuit when no usable page remains, otherwise call the
model once. The fire-and-forget webhook (src/app.py:863-875) cannot alter
this result and is not modelled. -/
def process_files_accident (model : List Img → String)
    (loose : List FileItem) (zip : ZipInput) : AccidentOutput :=
  let allImages := all_images_of loose zip
  if allImages.isEmpty then
    { result := "No valid images found to process", gallery := none,
      imageCount := 0, modelCalls := 0 }
  else
    let r := process_documents_with_gemini model allImages
    { result := r.1, gallery := some allImages,
      imageCount := allImages.length, modelCalls := r.2 }

/-- The pages an item contributes when it is supported and readable. -/
def itemPages : FileItem → List Img
  | .image true im => [im]
  | .pdf true pages => pages
  | _ => []

/-- An item is usable when it is of a supported kind and readable. -/
def isUsable : FileItem → Bool
  | .image ok _ => ok
  | .pdf ok _ => ok
  | .unsupported => false

theorem process_uploaded_files_eq_filter (files : List FileItem) :
    process_uploaded_files files = (files.filter isUsable).flatMap itemPages := by
  induction files with
  | nil => rfl
  | cons f rest ih =>
    cases f with
    | image ok im => cases ok <;> simp [process_uploaded_files, isUsable, itemPages, ih]
    | pdf ok pages => cases ok <;> simp [process_uploaded_files, isUsable, itemPages, ih]
    | unsupported => simp [process_uploaded_files, isUsable, itemPages, ih]

theorem process_uploaded_files_skips {b : FileItem} (hb : isUsable b = false)
    (xs ys : List FileItem) :
    process_uploaded_files (xs ++ b :: ys) = process_uploaded_files (xs ++ ys) := by
  simp [process_uploaded_files_eq_filter, List.filter_append, List.filter_cons, hb]

/-- Python list subscription `xs[i]`: nonnegative indices from the front,
negative indices from the end (`xs[-1]` is the last element); `none`
models the `IndexError` raised outside `[-len, len)`. -/
def pyIndex {α : Type} (xs : List α) (i : Int) : Option α :=
  if 0 ≤ i then xs.get? i.toNat
  else if 0 ≤ (xs.length : Int) + i then xs.get? ((xs.length : Int) + i).toNat
  else none

/-- Python `int(q)` for the exact value `q`: truncation toward zero. -/
def pyInt (q : ℚ) : Int :=
  if 0 ≤ q then ⌊q⌋ else ⌈q⌉

/-- `draw_bounding_box_on_image` (src/app.py:552-579), reduced to its
observable geometry: the pixel rectangle `(x1, y1, x2, y2)` drawn on an
image of the given pixel size, from a `[ymin, xmin, ymax, xmax]` box on
the 0-1000 normalized scale. The source computes each coordinate as
`int((v / 1000.0) * dimension)`; the float arithmetic is modelled by the
exact rational value truncated toward zero. `none` models the fallback in
which unpacking the box fails and the unmarked image is returned (the
`except` branch). -/
def draw_bounding_box_on_image (width height : Nat) (box : List Int) :
    Option (Int × Int × Int × Int) :=
  match box with
  | [ymin, xmin, ymax, xmax] =>
    some (pyInt ((xmin : ℚ) / 1000 * width),
          pyInt ((ymin : ℚ) / 1000 * height),
          pyInt ((xmax : ℚ) / 1000 * width),
          pyInt ((ymax : ℚ) / 1000 * height))
  | _ => none

/-- The damage-overlay block of `process_files_windshield`
(src/app.py:928-939). From `extractedData` it reads
`photographicEvidence` then `damageLocation` with `{}` defaults, guards on
truthiness and presence of both `imageIndex` and `box_2d`, requires the
box to be a list of exactly 4 elements and `imageIndex < len(all_images)`,
and then subscripts `all_images[image_index]` — Python semantics, so a
negative in-range index resolves from the end, while the `IndexError` of a
too-negative index is caught by the surrounding `except` and leaves the
overlay absent. Result: the image the box is drawn on together with the
box, or `none` when no overlay is produced. A non-integer `imageIndex`
raises `TypeError` at the `<` comparison, likewise caught (`none`); JSON
booleans are Python ints (`True == 1`). -/
def windshield_damage_image (allImages : List Img) (extractedData : Json) :
    Option (Img × List Json) :=
  let pe := jGetD extractedData "photographicEvidence" (.obj [])
  let dl := jGetD pe "damageLocation" (.obj [])
  if dl.truthy && jHasKey dl "imageIndex" && jHasKey dl "box_2d" then
    match dl with
    | .obj fs =>
      match findVal fs "imageIndex", findVal fs "box_2d" with
      | some (.num idx), some (.arr box) =>
        if box.length = 4 ∧ idx < (allImages.length : Int) then
          (pyIndex allImages idx).map (fun im => (im, box))
        else none
      | some (.bool b), some (.arr box) =>
        if box.length = 4 ∧ (if b then (1 : Int) else 0) < (allImages.length : Int) then
          (pyIndex allImages (if b then 1 else 0)).map (fun im => (im, box))
        else none
      | _, _ => none
    | _ => none
  else none

/-- The windshield section extraction of `process_files_windshield`
(src/app.py:917-920): the three top-level sections are read independently
with `dict.get(key, {})`, so a missing section becomes an empty mapping. -/
def windshield_sections (parsed : Json) : Json × Json × Json :=
  (jGetD parsed "documentChecklist" (.obj []),
   jGetD parsed "extractedData" (.obj []),
   jGetD parsed "consistencyAnalysis" (.obj []))

/-- The fixed section order of `section_mapping` in
`create_extraction_tiles` (src/app.py:646-652), also used by
`navigate_extraction_tiles` (src/app.py:978). -/
def sectionKeys : List String :=
  ["civilId", "driversLicense", "vehicleRegistration", "repairOrder",
   "photographicEvidence"]

/-- `create_extraction_tiles` (src/app.py:639-755), reduced to its control
flow: collect the known sections present in `extracted_data` in the fixed
order; with none present return the no-data placeholder with index 0 and
count 0; otherwise clamp the requested index into `[0, count-1]` and
return it with the count. The tile markup itself is presentation glue and
is reduced to a short label naming the rendered position. -/
def create_extraction_tiles (extractedData : Json) (currentIndex : Int) :
    String × Int × Nat :=
  let present := sectionKeys.filter (fun k => jHasKey extractedData k)
  match present with
  | [] => ("<p>No extraction data available</p>", 0, 0)
  | _ :: _ =>
    let n := present.length
    let c : Int := max 0 (min currentIndex ((n : Int) - 1))
    ("Section " ++ toString (c + 1) ++ " of " ++ toString n, c, n)

/-- A raw model-reply text together with the outcome of `json.loads` on
it; `none` models `JSONDecodeError`. The pair stands for the text itself,
with the library parser's verdict recorded alongside it. -/
structure RawText where
  raw : String
  parsed : Option Json

/-- `navigate_extraction_tiles` (src/app.py:967-993): empty stored text
returns the no-data triple; a parse failure, or stored JSON that is not an
object (whose `.get` raises `AttributeError`), lands in the `except`
branch, which returns an error paragraph (its exception text is abstracted
away), the unchanged index and count 0; otherwise the new index is
computed from the direction and handed to `create_extraction_tiles`, which
clamps it. -/
def navigate_extraction_tiles (stored : RawText) (direction : String)
    (currentIndex : Int) : String × Int × Nat :=
  if stored.raw = "" then ("<p>No data available</p>", 0, 0)
  else
    match stored.parsed with
    | some (.obj fs) =>
      let extractedData := (findVal fs "extractedData").getD (.obj [])
      let sectionCount := (sectionKeys.filter (fun k => jHasKey extractedData k)).length
      let newIndex : Int :=
        if direction = "prev" then max 0 (currentIndex - 1)
        else if direction = "next" then min ((sectionCount : Int) - 1) (currentIndex + 1)
        else currentIndex
      create_extraction_tiles extractedData newIndex
    | _ => ("<p>Error navigating</p>", currentIndex, 0)

/-- The first return value of `parse_and_format_json`: either the raw text
passed through unparsed, or the successfully parsed value (standing for
its `json.dumps` re-serialization, which preserves every key). -/
inductive FormattedOutput where
  | unparsed (raw : String)
  | formatted (j : Json)

/-- One entry of the per-document list built by `parse_and_format_json`;
the human-readable summary string built by `create_document_summary` is
presentation glue and is represented by the classified type alone. -/
structure DocEntry where
  key : String
  doctype : String
  content : Json

/-- `parse_and_format_json` (src/app.py:1041-1080): empty input or input
starting with "Error" is passed through; a parse failure returns the raw
text with no documents; on success the `validation_summary` key is split
off (when present), and every remaining top-level binding whose value is a
dict is classified and listed — non-dict values are skipped by the
`isinstance` check, and a non-dict top level yields no documents at all. -/
def parse_and_format_json (t : RawText) :
    FormattedOutput × List DocEntry × Option Json :=
  if t.raw = "" ∨ t.raw.startsWith "Error" then (.unparsed t.raw, [], none)
  else
    match t.parsed with
    | none => (.unparsed t.raw, [], none)
    | some parsed =>
      let docsSrc : List (String × Json) :=
        match parsed with
        | .obj fields =>
          if hasKey fields "validation_summary" then
            fields.filter (fun p => p.1 ≠ "validation_summary")
          else fields
        | _ => []
      let vs : Option Json :=
        match parsed with
        | .obj fields => findVal fields "validation_summary"
        | _ => none
      let documents : List DocEntry := docsSrc.filterMap (fun p =>
        match p.2 with
        | .obj d => some ⟨p.1, identify_document_type d, .obj d⟩
        | _ => none)
      (.formatted parsed, documents, vs)

/-! Helper lemmas about association-list lookup under the Python-dict
invariant (distinct keys), Python list subscription, and the tile
clamp. -/

theorem findVal_eq_none {l : List (String × Json)} {k : String}
    (h : hasKey l k = false) : findVal l k = none := by
  simp only [hasKey, List.any_eq_false, decide_eq_true_eq] at h
  have hf : List.find? (fun p => decide (p.1 = k)) l = none :=
    List.find?_eq_none.mpr (fun p hp => by simpa using h p hp)
  simp [findVal, hf]

theorem findVal_eq_of_mem {l : List (String × Json)} {k : String} {v : Json}
    (hnd : (l.map Prod.fst).Nodup) (hmem : (k, v) ∈ l) : findVal l k = some v := by
  induction l with
  | nil => cases hmem
  | cons p rest ih =>
    simp only [List.map_cons, List.nodup_cons] at hnd
    rcases List.mem_cons.mp hmem with h | h
    · subst h
      simp [findVal, List.find?_cons]
    · have hne : (decide (p.1 = k)) = false := by
        simp only [decide_eq_false_iff_not]
        intro he
        exact hnd.1 (he ▸ (List.mem_map.mpr ⟨(k, v), h, rfl⟩))
      have ht := ih hnd.2 h
      simp only [findVal, List.find?_cons, hne] at ht ⊢
      exact ht

theorem pyIndex_isSome {α : Type} (xs : List α) (i : Int) :
    (pyIndex xs i).isSome = true ↔
      (-(xs.length : Int) ≤ i ∧ i < (xs.length : Int)) := by
  unfold pyIndex
  split_ifs with h0 h1
  · simp only [Option.isSome_iff_ne_none, ne_eq, List.get?_eq_none, not_le]
    omega
  · simp only [Option.isSome_iff_ne_none, ne_eq, List.get?_eq_none, not_le]
    omega
  · simp only [Option.isSome_none, Bool.false_eq_true, false_iff, not_and, not_lt]
    omega

theorem create_extraction_tiles_of_present (extractedData : Json) (i : Int)
    (h : sectionKeys.filter (fun k => jHasKey extractedData k) ≠ []) :
    (create_extraction_tiles extractedData i).2.1 =
      max 0 (min i
        (((sectionKeys.filter (fun k => jHasKey extractedData k)).length : Int) - 1)) ∧
    (create_extraction_tiles extractedData i).2.2 =
      (sectionKeys.filter (fun k => jHasKey extractedData k)).length := by
  unfold create_extraction_tiles
  cases hp : sectionKeys.filter (fun k => jHasKey extractedData k) with
  | nil => exact absurd hp h
  | cons a l => simp [hp]

/-! Claim theorems. -/

/-- Claim C1, counterexample: with a single submitted page image, the
annotation `box_2d = [0, 0, 10, 10]`, `imageIndex = -1` has an index
outside `[0, 1)`, yet the windshield workflow resolves it into an overlay
image (Python subscription lets `-1` address the last page) instead of
treating it as absent. -/
theorem windshield_negative_index_draws_overlay :
    windshield_damage_image [(0 : Img)]
      (.obj [("photographicEvidence", .obj [("damageLocation",
        .obj [("imageIndex", Json.num (-1)),
              ("box_2d", Json.arr [Json.num 0, Json.num 0, Json.num 10, Json.num 10])])])]) =
      some (0, [Json.num 0, Json.num 0, Json.num 10, Json.num 10]) ∧
    ¬((0 : Int) ≤ -1) :=
  ⟨rfl, by decide⟩

/-- Claim C1 as amended: for the windshield workflow, a damage-location
annotation carrying an integer `imageIndex` and a `box_2d` array is
resolved into an overlay image exactly when `box_2d` has exactly 4
elements and `-len(PageImages) ≤ imageIndex < len(PageImages)` — Python
subscription resolves a negative in-range index from the end of the page
sequence; every index at or above `len(PageImages)` and every index below
`-len(PageImages)` is treated as absent, with no overlay drawn and no
error raised (the out-of-range `IndexError` is caught internally, and the
function is total). -/
theorem windshield_damage_resolution (images : List Img) (idx : Int) (box : List Json) :
    (windshield_damage_image images
      (.obj [("photographicEvidence", .obj [("damageLocation",
        .obj [("imageIndex", Json.num idx), ("box_2d", Json.arr box)])])])).isSome = true ↔
      (box.length = 4 ∧ -(images.length : Int) ≤ idx ∧ idx < (images.length : Int)) := by
  show (if box.length = 4 ∧ idx < (images.length : Int) then
          (pyIndex images idx).map (fun im => (im, box)) else none).isSome = true ↔ _
  split_ifs with h
  · rw [Option.isSome_map', pyIndex_isSome]
    constructor
    · rintro ⟨ha, hb⟩
      exact ⟨h.1, ha, h.2⟩
    · rintro ⟨-, ha, hb⟩
      exact ⟨ha, hb⟩
  · simp only [Option.isSome_none, Bool.false_eq_true, false_iff, not_and]
    intro hl hge hlt
    exact h ⟨hl, hlt⟩

/-- Claim C2: a submission whose normalized image sequence is empty
short-circuits with the nothing-to-process result and never invokes the
external model; likewise the request assembler itself short-circuits on an
empty image list before its model call. -/
theorem empty_submission_short_circuits (model : List Img → String)
    (loose : List FileItem) (zip : ZipInput)
    (h : all_images_of loose zip = []) :
    process_files_accident model loose zip =
      ⟨"No valid images found to process", none, 0, 0⟩ ∧
    process_documents_with_gemini model [] = ("No images to process", 0) := by
  constructor
  · simp [process_files_accident, h]
  · rfl

theorem empty_submission_short_circuits_witness :
    process_files_accident (fun _ => "reply")
        [FileItem.unsupported, FileItem.image false 0] ZipInput.corrupt =
      ⟨"No valid images found to process", none, 0, 0⟩ ∧
    process_documents_with_gemini (fun _ => "reply") [] =
      ("No images to process", 0) :=
  empty_submission_short_circuits (fun _ => "reply")
    [FileItem.unsupported, FileItem.image false 0] ZipInput.corrupt rfl

/-- Claim C3: for every input text that `json.loads` cannot parse, the
response normalizer returns the unparsed result carrying the original raw
text with no documents and no validation summary; it is a total function,
so no exception escapes. -/
theorem parse_failure_returns_unparsed (t : RawText) (h : t.parsed = none) :
    parse_and_format_json t = (.unparsed t.raw, [], none) := by
  unfold parse_and_format_json
  split_ifs with hg
  · rfl
  · simp [h]

theorem parse_failure_returns_unparsed_witness :
    parse_and_format_json ⟨"model said nonsense", none⟩ =
      (.unparsed "model said nonsense", [], none) :=
  parse_failure_returns_unparsed ⟨"model said nonsense", none⟩ rfl

/-- Claim C4: for the windshield workflow, the three sections
`documentChecklist`, `extractedData` and `consistencyAnalysis` of a
successfully parsed JSON object are extracted independently; a section
missing from the source object is replaced by an empty mapping, and a
present section is returned exactly as stored — the extraction is total,
so no key is ever missing from the result and no error is raised. -/
theorem windshield_sections_defaulting (fields : List (String × Json))
    (hnd : (fields.map Prod.fst).Nodup) :
    ((hasKey fields "documentChecklist" = false →
        (windshield_sections (.obj fields)).1 = .obj []) ∧
      (∀ v, ("documentChecklist", v) ∈ fields →
        (windshield_sections (.obj fields)).1 = v)) ∧
    ((hasKey fields "extractedData" = false →
        (windshield_sections (.obj fields)).2.1 = .obj []) ∧
      (∀ v, ("extractedData", v) ∈ fields →
        (windshield_sections (.obj fields)).2.1 = v)) ∧
    ((hasKey fields "consistencyAnalysis" = false →
        (windshield_sections (.obj fields)).2.2 = .obj []) ∧
      (∀ v, ("consistencyAnalysis", v) ∈ fields →
        (windshield_sections (.obj fields)).2.2 = v)) := by
  refine ⟨⟨?_, ?_⟩, ⟨?_, ?_⟩, ⟨?_, ?_⟩⟩
  · intro h
    simp [windshield_sections, jGetD, findVal_eq_none h]
  · intro v hv
    simp [windshield_sections, jGetD, findVal_eq_of_mem hnd hv]
  · intro h
    simp [windshield_sections, jGetD, findVal_eq_none h]
  · intro v hv
    simp [windshield_sections, jGetD, findVal_eq_of_mem hnd hv]
  · intro h
    simp [windshield_sections, jGetD, findVal_eq_none h]
  · intro v hv
    simp [windshield_sections, jGetD, findVal_eq_of_mem hnd hv]

theorem windshield_sections_defaulting_witness :
    (windshield_sections (.obj [("documentChecklist",
        Json.obj [("summary", Json.str "ok")])])).1 =
      Json.obj [("summary", Json.str "ok")] ∧
    (windshield_sections (.obj [("documentChecklist",
        Json.obj [("summary", Json.str "ok")])])).2.1 = .obj [] ∧
    (windshield_sections (.obj [("documentChecklist",
        Json.obj [("summary", Json.str "ok")])])).2.2 = .obj [] := by
  have h := windshield_sections_defaulting
    [("documentChecklist", Json.obj [("summary", Json.str "ok")])] (by decide)
  exact ⟨h.1.2 _ (by simp), h.2.1.1 (by rfl), h.2.2.1 (by rfl)⟩

/-- Claim C5: the accident document-type classifier decides by presence of
characteristic key pairs — both `report_header` and `first_party` present
yields the police-report label, and similarly each of the other four
signatures fires when the signatures before it in the fixed chain do not;
with no signature matching it returns "Unknown Document Type"; and the
result is invariant under any permutation of the object's key order. -/
theorem identify_document_type_signatures :
    (∀ doc : List (String × Json),
      (hasKey doc "report_header" = true → hasKey doc "first_party" = true →
        identify_document_type doc = "Police Report (Form 1)") ∧
      (¬(hasKey doc "report_header" = true ∧ hasKey doc "first_party" = true) →
        hasKey doc "violator_information" = true →
        hasKey doc "violation_description" = true →
        identify_document_type doc = "Acceptance of Reconciliation (Form 2)") ∧
      (¬(hasKey doc "report_header" = true ∧ hasKey doc "first_party" = true) →
        ¬(hasKey doc "violator_information" = true ∧ hasKey doc "violation_description" = true) →
        hasKey doc "involved_vehicles" = true →
        hasKey doc "authorizing_officer" = true →
        identify_document_type doc = "Traffic Accident Notification (Form 3)") ∧
      (¬(hasKey doc "report_header" = true ∧ hasKey doc "first_party" = true) →
        ¬(hasKey doc "violator_information" = true ∧ hasKey doc "violation_description" = true) →
        ¬(hasKey doc "involved_vehicles" = true ∧ hasKey doc "authorizing_officer" = true) →
        hasKey doc "issuing_company" = true →
        hasKey doc "policy_summary" = true →
        identify_document_type doc = "Insurance Policy (Form 4)") ∧
      (¬(hasKey doc "report_header" = true ∧ hasKey doc "first_party" = true) →
        ¬(hasKey doc "violator_information" = true ∧ hasKey doc "violation_description" = true) →
        ¬(hasKey doc "involved_vehicles" = true ∧ hasKey doc "authorizing_officer" = true) →
        ¬(hasKey doc "issuing_company" = true ∧ hasKey doc "policy_summary" = true) →
        hasKey doc "vehicle_and_driver" = true →
        hasKey doc "damage_description" = true →
        identify_document_type doc = "Hit and Run Report (Form 5)") ∧
      (¬(hasKey doc "report_header" = true ∧ hasKey doc "first_party" = true) →
        ¬(hasKey doc "violator_information" = true ∧ hasKey doc "violation_description" = true) →
        ¬(hasKey doc "involved_vehicles" = true ∧ hasKey doc "authorizing_officer" = true) →
        ¬(hasKey doc "issuing_company" = true ∧ hasKey doc "policy_summary" = true) →
        ¬(hasKey doc "vehicle_and_driver" = true ∧ hasKey doc "damage_description" = true) →
        identify_document_type doc = "Unknown Document Type")) ∧
    (∀ doc doc' : List (String × Json), doc.Perm doc' →
      identify_document_type doc = identify_document_type doc') := by
  constructor
  · intro doc
    refine ⟨?_, ?_, ?_, ?_, ?_, ?_⟩
    · intro h1 h2
      simp only [identify_document_type, Bool.and_eq_true]
      rw [if_pos ⟨h1, h2⟩]
    · intro hn1 h1 h2
      simp only [identify_document_type, Bool.and_eq_true]
      rw [if_neg hn1, if_pos ⟨h1, h2⟩]
    · intro hn1 hn2 h1 h2
      simp only [identify_document_type, Bool.and_eq_true]
      rw [if_neg hn1, if_neg hn2, if_pos ⟨h1, h2⟩]
    · intro hn1 hn2 hn3 h1 h2
      simp only [identify_document_type, Bool.and_eq_true]
      rw [if_neg hn1, if_neg hn2, if_neg hn3, if_pos ⟨h1, h2⟩]
    · intro hn1 hn2 hn3 hn4 h1 h2
      simp only [identify_document_type, Bool.and_eq_true]
      rw [if_neg hn1, if_neg hn2, if_neg hn3, if_neg hn4, if_pos ⟨h1, h2⟩]
    · intro hn1 hn2 hn3 hn4 hn5
      simp only [identify_document_type, Bool.and_eq_true]
      rw [if_neg hn1, if_neg hn2, if_neg hn3, if_neg hn4, if_neg hn5]
  · intro doc doc' h
    simp only [identify_document_type, hasKey_perm h]

theorem identify_document_type_signatures_witness :
    identify_document_type
        [("report_header", Json.null), ("first_party", Json.null)] =
      "Police Report (Form 1)" ∧
    identify_document_type [("unrelated", Json.null)] = "Unknown Document Type" ∧
    identify_document_type
        [("report_header", Json.null), ("first_party", Json.null)] =
      identify_document_type
        [("first_party", Json.null), ("report_header", Json.null)] :=
  ⟨((identify_document_type_signatures.1 _).1 (by decide) (by decide)),
   ((identify_document_type_signatures.1 _).2.2.2.2.2 (by decide) (by decide)
      (by decide) (by decide) (by decide)),
   (identify_document_type_signatures.2 _ _
      (List.Perm.swap ("first_party", Json.null) ("report_header", Json.null) []))⟩

/-- Claim C6: the output image sequence is exactly the pages of the
supported, readable inputs — loose files first in submission order, then
archive-derived files, each PDF contributing its pages in document page
order via `itemPages` — and any unsupported or unreadable item (corrupt
image, corrupt PDF, or a whole corrupt archive) is silently excluded
without changing what the remaining items produce. -/
theorem intake_ordering_and_containment :
    (∀ (loose entries : List FileItem),
      all_images_of loose (.archive entries) =
        (loose.filter isUsable).flatMap itemPages ++
        (entries.filter isUsable).flatMap itemPages) ∧
    (∀ (xs ys : List FileItem) (b : FileItem), isUsable b = false →
      process_uploaded_files (xs ++ b :: ys) = process_uploaded_files (xs ++ ys)) ∧
    process_zip_file .corrupt = [] := by
  refine ⟨?_, ?_, rfl⟩
  · intro loose entries
    simp [all_images_of, process_zip_file, process_uploaded_files_eq_filter]
  · intro xs ys b hb
    exact process_uploaded_files_skips hb xs ys

theorem intake_ordering_and_containment_witness :
    process_uploaded_files
        [FileItem.image true 1, FileItem.pdf false [9, 9], FileItem.image true 2] =
      process_uploaded_files [FileItem.image true 1, FileItem.image true 2] :=
  intake_ordering_and_containment.2.1
    [FileItem.image true 1] [FileItem.image true 2] (FileItem.pdf false [9, 9]) rfl

/-- Claim C7: the damage-box overlay maps a normalized
`[ymin, xmin, ymax, xmax]` box to pixel coordinates by independent linear
scaling per axis — each coordinate is `(value / 1000) * dimension`,
truncated to a pixel — and for box `[100, 200, 300, 400]` on an image
with width 2000 and height 1000 the computed rectangle is
`(x1 = 400, y1 = 100, x2 = 800, y2 = 300)`. -/
theorem draw_bounding_box_linear_scaling :
    (∀ (ymin xmin ymax xmax : Int) (width height : Nat),
      0 ≤ ymin → 0 ≤ xmin → 0 ≤ ymax → 0 ≤ xmax →
      draw_bounding_box_on_image width height [ymin, xmin, ymax, xmax] =
        some (⌊(xmin : ℚ) / 1000 * width⌋, ⌊(ymin : ℚ) / 1000 * height⌋,
              ⌊(xmax : ℚ) / 1000 * width⌋, ⌊(ymax : ℚ) / 1000 * height⌋)) ∧
    draw_bounding_box_on_image 2000 1000 [100, 200, 300, 400] =
      some (400, 100, 800, 300) := by
  constructor
  · intro ymin xmin ymax xmax width height h1 h2 h3 h4
    have key : ∀ (v : Int) (d : Nat), 0 ≤ v →
        pyInt ((v : ℚ) / 1000 * d) = ⌊(v : ℚ) / 1000 * d⌋ := by
      intro v d hv
      unfold pyInt
      rw [if_pos]
      have hv' : (0 : ℚ) ≤ (v : ℚ) := by exact_mod_cast hv
      positivity
    show some (pyInt ((xmin : ℚ) / 1000 * width), pyInt ((ymin : ℚ) / 1000 * height),
               pyInt ((xmax : ℚ) / 1000 * width), pyInt ((ymax : ℚ) / 1000 * height)) = _
    rw [key _ _ h2, key _ _ h1, key _ _ h3, key _ _ h4]
  · unfold draw_bounding_box_on_image pyInt
    norm_num

theorem draw_bounding_box_linear_scaling_witness :
    draw_bounding_box_on_image 2000 1000 [100, 200, 300, 400] =
      some (⌊(200 : ℚ) / 1000 * 2000⌋, ⌊(100 : ℚ) / 1000 * 1000⌋,
            ⌊(400 : ℚ) / 1000 * 2000⌋, ⌊(300 : ℚ) / 1000 * 1000⌋) := by
  have h := draw_bounding_box_linear_scaling.1 100 200 300 400 2000 1000
    (by norm_num) (by norm_num) (by norm_num) (by norm_num)
  simpa using h

/-- The section count computed by `navigate_extraction_tiles`
(src/app.py:978) from stored data that parsed to the object `fs`: the
number of the five known section keys present in its `extractedData`. -/
def navigate_section_count (fs : List (String × Json)) : Nat :=
  (sectionKeys.filter (fun k =>
    jHasKey ((findVal fs "extractedData").getD (.obj [])) k)).length

/-- Claim C8: with at least one known section present, extraction-tile
navigation always lands inside `[0, sectionCount - 1]`: a "prev" request
at index 0 stays at 0, a "next" request at the last index stays at the
last index, and any other requested index is clamped to the nearest valid
index rather than failing. -/
theorem navigate_extraction_tiles_clamps
    (stored : RawText) (fs : List (String × Json)) (direction : String) (cIdx : Int)
    (h1 : ¬stored.raw = "") (h2 : stored.parsed = some (.obj fs))
    (hcount : 1 ≤ navigate_section_count fs) :
    (navigate_extraction_tiles stored direction cIdx).2.2 =
      navigate_section_count fs ∧
    (0 ≤ (navigate_extraction_tiles stored direction cIdx).2.1 ∧
      (navigate_extraction_tiles stored direction cIdx).2.1 <
        (navigate_section_count fs : Int)) ∧
    (direction = "prev" → cIdx = 0 →
      (navigate_extraction_tiles stored direction cIdx).2.1 = 0) ∧
    (direction = "next" → cIdx = (navigate_section_count fs : Int) - 1 →
      (navigate_extraction_tiles stored direction cIdx).2.1 =
        (navigate_section_count fs : Int) - 1) ∧
    (¬direction = "prev" → ¬direction = "next" →
      (navigate_extraction_tiles stored direction cIdx).2.1 =
        max 0 (min cIdx ((navigate_section_count fs : Int) - 1))) := by
  obtain ⟨raw, parsed⟩ := stored
  simp only at h1 h2
  subst h2
  have hr : ∀ i : Int, navigate_extraction_tiles ⟨raw, some (.obj fs)⟩ direction i =
      create_extraction_tiles ((findVal fs "extractedData").getD (.obj []))
        (if direction = "prev" then max 0 (i - 1)
         else if direction = "next" then
           min ((navigate_section_count fs : Int) - 1) (i + 1)
         else i) := by
    intro i
    unfold navigate_extraction_tiles navigate_section_count
    rw [if_neg h1]
  have hne : sectionKeys.filter (fun k =>
      jHasKey ((findVal fs "extractedData").getD (.obj [])) k) ≠ [] := by
    intro hnil
    unfold navigate_section_count at hcount
    rw [hnil] at hcount
    simp at hcount
  have hct := fun i => create_extraction_tiles_of_present
    ((findVal fs "extractedData").getD (.obj [])) i hne
  have hlen : ∀ i : Int, (create_extraction_tiles
      ((findVal fs "extractedData").getD (.obj [])) i).2.2 =
      navigate_section_count fs := fun i => (hct i).2
  have hidx : ∀ i : Int, (create_extraction_tiles
      ((findVal fs "extractedData").getD (.obj [])) i).2.1 =
      max 0 (min i ((navigate_section_count fs : Int) - 1)) := fun i => (hct i).1
  have hc1 : 1 ≤ (navigate_section_count fs : Int) := by exact_mod_cast hcount
  refine ⟨?_, ⟨?_, ?_⟩, ?_, ?_, ?_⟩
  · rw [hr, hlen]
  · rw [hr, hidx]
    simp only [max_def, min_def]
    split_ifs <;> omega
  · rw [hr, hidx]
    simp only [max_def, min_def]
    split_ifs <;> omega
  · intro hd hc
    subst hd hc
    rw [hr, hidx]
    simp only [if_pos rfl, max_def, min_def]
    split_ifs <;> omega
  · intro hd hc
    subst hd hc
    rw [hr, hidx]
    have hpn : ("next" : String) ≠ "prev" := by decide
    rw [if_neg hpn, if_pos rfl]
    simp only [max_def, min_def]
    split_ifs <;> omega
  · intro hd1 hd2
    rw [hr, hidx]
    rw [if_neg hd1, if_neg hd2]

theorem navigate_extraction_tiles_clamps_witness :
    (navigate_extraction_tiles
      ⟨"stored", some (.obj [("extractedData",
        .obj [("civilId", Json.null), ("repairOrder", Json.null)])])⟩
      "next" 1).2.1 = 1 := by
  have h := navigate_extraction_tiles_clamps
    ⟨"stored", some (.obj [("extractedData",
      .obj [("civilId", Json.null), ("repairOrder", Json.null)])])⟩
    [("extractedData", .obj [("civilId", Json.null), ("repairOrder", Json.null)])]
    "next" 1 (by decide) rfl (by decide)
  have h4 := h.2.2.2.1 rfl (by decide)
  simpa using h4

/-- Claim C9: in accident-workflow normalization, a top-level key whose
value is not a JSON object is excluded from the per-document list (so it
is never classified or summarized), while it still appears among the keys
of the formatted complete-JSON output, which re-serializes the full parsed
object. -/
theorem accident_non_object_values_excluded
    (t : RawText) (fields : List (String × Json)) (k : String) (v : Json)
    (hp : t.parsed = some (.obj fields))
    (h1 : ¬t.raw = "") (h2 : t.raw.startsWith "Error" = false)
    (hnd : (fields.map Prod.fst).Nodup)
    (hmem : (k, v) ∈ fields) (hv : v.isObj = false) :
    (∀ d ∈ (parse_and_format_json t).2.1, ¬d.key = k) ∧
    (parse_and_format_json t).1 = .formatted (.obj fields) ∧
    hasKey fields k = true := by
  have hguard : ¬(t.raw = "" ∨ t.raw.startsWith "Error" = true) := by
    rintro (h | h)
    · exact h1 h
    · rw [h2] at h
      cases h
  refine ⟨?_, ?_, ?_⟩
  · intro d hd hk
    unfold parse_and_format_json at hd
    rw [if_neg hguard, hp] at hd
    simp only [List.mem_filterMap] at hd
    obtain ⟨⟨k', v'⟩, hmem', hsome⟩ := hd
    have hfields : (k', v') ∈ fields := by
      by_cases hvs : hasKey fields "validation_summary" = true
      · rw [if_pos hvs] at hmem'
        exact (List.mem_filter.mp hmem').1
      · rw [if_neg hvs] at hmem'
        exact hmem'
    cases v' with
    | obj d' =>
      have hkey : d.key = k' := by
        cases hsome.symm
        rfl
      have hk' : k' = k := by rw [← hkey, hk]
      subst hk'
      have e1 := findVal_eq_of_mem hnd hmem
      have e2 := findVal_eq_of_mem hnd hfields
      rw [e1] at e2
      cases e2
      cases hv
    | null => cases hsome
    | bool b => cases hsome
    | num n => cases hsome
    | str s => cases hsome
    | arr xs => cases hsome
  · unfold parse_and_format_json
    rw [if_neg hguard, hp]
  · simp only [hasKey, List.any_eq_true]
    exact ⟨(k, v), hmem, by simp⟩

theorem accident_non_object_values_excluded_witness :
    (∀ d ∈ (parse_and_format_json ⟨"ok", some (.obj
        [("note", Json.str "loose text"),
         ("doc1", Json.obj [("report_header", Json.null)])])⟩).2.1,
      ¬d.key = "note") ∧
    (parse_and_format_json ⟨"ok", some (.obj
        [("note", Json.str "loose text"),
         ("doc1", Json.obj [("report_header", Json.null)])])⟩).1 =
      .formatted (.obj [("note", Json.str "loose text"),
                        ("doc1", Json.obj [("report_header", Json.null)])]) ∧
    hasKey [("note", Json.str "loose text"),
            ("doc1", Json.obj [("report_header", Json.null)])] "note" = true :=
  accident_non_object_values_excluded
    ⟨"ok", some (.obj [("note", Json.str "loose text"),
                          ("doc1", Json.obj [("report_header", Json.null)])])⟩
    [("note", Json.str "loose text"),
     ("doc1", Json.obj [("report_header", Json.null)])]
    "note" (Json.str "loose text") rfl (by decide) (by decide) (by decide)
    (by simp) rfl

/-- Claim C10: the extraction-tile renderer is total at the display
boundary — with none of the five known section keys present,
`create_extraction_tiles` returns the no-data placeholder with index 0 and
count 0 for every requested index, and `navigate_extraction_tiles` returns
the no-data triple on empty stored text and an error triple (unchanged
index, count 0) on unparseable stored text; all three paths are total
functions, so nothing is raised. -/
theorem display_totality :
    (∀ (extractedData : Json) (i : Int),
      (∀ k ∈ sectionKeys, jHasKey extractedData k = false) →
      create_extraction_tiles extractedData i =
        ("<p>No extraction data available</p>", 0, 0)) ∧
    (∀ (parsed : Option Json) (direction : String) (cIdx : Int),
      navigate_extraction_tiles ⟨"", parsed⟩ direction cIdx =
        ("<p>No data available</p>", 0, 0)) ∧
    (∀ (raw direction : String) (cIdx : Int), ¬raw = "" →
      navigate_extraction_tiles ⟨raw, none⟩ direction cIdx =
        ("<p>Error navigating</p>", cIdx, 0)) := by
  refine ⟨?_, ?_, ?_⟩
  · intro extractedData i h
    have hnil : sectionKeys.filter (fun k => jHasKey extractedData k) = [] :=
      List.filter_eq_nil_iff.mpr (fun k hk => by simp [h k hk])
    unfold create_extraction_tiles
    rw [hnil]
  · intro parsed direction cIdx
    unfold navigate_extraction_tiles
    rw [if_pos rfl]
  · intro raw direction cIdx h
    unfold navigate_extraction_tiles
    rw [if_neg h]

theorem display_totality_witness :
    create_extraction_tiles (.obj [("unrelated", Json.null)]) 5 =
      ("<p>No extraction data available</p>", 0, 0) ∧
    navigate_extraction_tiles ⟨"", none⟩ "next" 2 =
      ("<p>No data available</p>", 0, 0) ∧
    navigate_extraction_tiles ⟨"oops", none⟩ "prev" 3 =
      ("<p>Error navigating</p>", 3, 0) :=
  ⟨display_totality.1 (.obj [("unrelated", Json.null)]) 5 (by decide),
   display_totality.2.1 none "next" 2,
   display_totality.2.2 "oops" "prev" 3 (by decide)⟩

end GigKwtFnol
